import Mathlib

/-!
# Verification of the AI-CI-CD-Orchestrator pipeline core

Shallow embedding of the pipeline execution and failure-recovery engine of
the repository (files `src/orchestrator/core/pipeline_manager.py`,
`src/orchestrator/core/orchestrator.py`, `src/orchestrator/fixers/ai_fixer.py`,
`src/monitors/alerter.py`), together with theorems settling the behavioural
claims about it.

External collaborators (task actions, fixers, the git change source, the
LLM) are modelled as oracle functions passed in as parameters; the control
flow of the engine itself is translated statement by statement from the
Python source.
-/

namespace Orchestrator

/-- The `PipelineStatus` enum from `pipeline_manager.py` (lines 26-32). -/
inductive PipelineStatus
  | pending
  | running
  | success
  | failed
  | cancelled
  deriving DecidableEq, Repr

/-- The `value` string of each `PipelineStatus` member, as declared in the
Python enum. -/
def PipelineStatus.value : PipelineStatus → String
  | .pending => "pending"
  | .running => "running"
  | .success => "success"
  | .failed => "failed"
  | .cancelled => "cancelled"

/-- The `AlertSeverity` enum from `monitors/alerter.py` (lines 13-18). -/
inductive AlertSeverity
  | info
  | warning
  | error
  | critical
  deriving DecidableEq, Repr

/-- A task of a pipeline definition: a name and an action identifier
(the `config` map is opaque to the engine's control flow and is carried
inside the action oracle). -/
structure Task where
  name : String
  action : String
  deriving DecidableEq, Repr

/-- A stage of a pipeline definition: name plus ordered task list
(`stage.get("name")`, `stage.get("tasks", [])`). -/
structure Stage where
  name : String
  tasks : List Task
  deriving DecidableEq, Repr

/-- The uniform result dictionary returned by `PipelineExecutor.execute_task`:
a `success` flag and an optional `error` string. -/
structure TaskResult where
  success : Bool
  error : Option String
  deriving DecidableEq, Repr

/-- The stage-result dictionary built by `PipelineManager._execute_stage`
(lines 368-390): stage name, success flag, the per-task results appended so
far, and the error of the failing task if any. -/
structure StageResult where
  name : String
  success : Bool
  tasks : List TaskResult
  error : Option String
  deriving DecidableEq, Repr

/-- The `pipeline_info` record built by `PipelineManager.execute_pipeline`
(lines 321-366): pipeline type string, status, ordered stage results,
terminal error, and whether `end_time` has been recorded. -/
structure PipelineInfo where
  ptype : String
  status : PipelineStatus
  stages : List StageResult
  error : Option String
  ended : Bool
  deriving DecidableEq, Repr

/-- The set of action identifiers `PipelineExecutor.execute_task` dispatches
on (lines 60-73 of `pipeline_manager.py`). -/
def knownActions : List String :=
  ["git_clone", "install", "build", "test", "archive", "deploy", "health_check"]

/-- Embedding of `PipelineExecutor.execute_task` (lines 42-79). The seven `_xxx` action
helpers are the oracle `runAction`; a Python exception raised by a helper is
modelled as `Except.error`, which the `try/except` of `execute_task` converts
into a failure result (line 79: `return ("success": False, "error": str(e))`).
An unrecognized action yields the failure result of line 75. `Ctx` is the
mutable execution-context dictionary, threaded explicitly. -/
def execute_task {Ctx : Type} (runAction : String → Ctx → Except String (TaskResult × Ctx))
    (task : Task) (c : Ctx) : TaskResult × Ctx :=
  if task.action ∈ knownActions then
    match runAction task.action c with
    | .ok r => r
    | .error e => (⟨false, some e⟩, c)
  else
    (⟨false, some ("Unknown action: " ++ task.action)⟩, c)

/-- The task loop of `PipelineManager._execute_stage` (lines 381-388): run
tasks in order via the executor `exec`, append each result, and `break` on the
first task whose result is not successful. Returns the appended task results,
the stage success flag, the stage error, and the threaded context. -/
def execute_stage_go {Ctx : Type} (exec : Task → Ctx → TaskResult × Ctx) :
    List Task → Ctx → List TaskResult × Bool × Option String × Ctx
  | [], c => ([], true, none, c)
  | t :: ts, c =>
    let p := exec t c
    if p.1.success then
      let q := execute_stage_go exec ts p.2
      (p.1 :: q.1, q.2.1, q.2.2.1, q.2.2.2)
    else
      ([p.1], false, p.1.error, p.2)

/-- Embedding of `PipelineManager._execute_stage` (lines 368-390). -/
def execute_stage {Ctx : Type} (exec : Task → Ctx → TaskResult × Ctx)
    (stage : Stage) (c : Ctx) : StageResult × Ctx :=
  let q := execute_stage_go exec stage.tasks c
  (⟨stage.name, q.2.1, q.1, q.2.2.1⟩, q.2.2.2)

/-- The stage loop of `PipelineManager.execute_pipeline` (lines 339-351):
execute stages in order, append each stage result, and return early with
status `failed` on the first stage whose result is not successful. Returns
the appended stage results, the overall success flag, the pipeline error,
and the threaded context. -/
def execute_pipeline_go {Ctx : Type} (exec : Task → Ctx → TaskResult × Ctx) :
    List Stage → Ctx → List StageResult × Bool × Option String × Ctx
  | [], c => ([], true, none, c)
  | s :: ss, c =>
    let p := execute_stage exec s c
    if p.1.success then
      let q := execute_pipeline_go exec ss p.2
      (p.1 :: q.1, q.2.1, q.2.2.1, q.2.2.2)
    else
      ([p.1], false, p.1.error, p.2)

/-- Embedding of `PipelineManager.execute_pipeline` (lines 304-366): run the stage loop
and produce the final `pipeline_info` record, with status `SUCCESS` when all
stages succeeded and `FAILED` otherwise, `end_time` recorded in both cases. -/
def execute_pipeline {Ctx : Type} (exec : Task → Ctx → TaskResult × Ctx)
    (ptype : String) (stages : List Stage) (c : Ctx) : PipelineInfo × Ctx :=
  let q := execute_pipeline_go exec stages c
  (⟨ptype, if q.2.1 then PipelineStatus.success else PipelineStatus.failed,
    q.1, q.2.2.1, true⟩, q.2.2.2)

/-! ## Structural lemmas about the stage and pipeline loops -/

theorem execute_stage_go_all_success {Ctx : Type} (exec : Task → Ctx → TaskResult × Ctx)
    (H : ∀ t c, (exec t c).1.success = true) :
    ∀ (ts : List Task) (c : Ctx),
      (execute_stage_go exec ts c).2.1 = true ∧
      (execute_stage_go exec ts c).1.length = ts.length
  | [], c => by simp [execute_stage_go]
  | t :: ts, c => by
    have h := H t c
    have ih := execute_stage_go_all_success exec H ts (exec t c).2
    simp [execute_stage_go, h, ih.1, ih.2]

theorem execute_pipeline_go_all_success {Ctx : Type} (exec : Task → Ctx → TaskResult × Ctx)
    (H : ∀ t c, (exec t c).1.success = true) :
    ∀ (ss : List Stage) (c : Ctx),
      (execute_pipeline_go exec ss c).2.1 = true ∧
      (execute_pipeline_go exec ss c).1.length = ss.length ∧
      (execute_pipeline_go exec ss c).1.map StageResult.name = ss.map Stage.name
  | [], c => by simp [execute_pipeline_go]
  | s :: ss, c => by
    have hs : (execute_stage_go exec s.tasks c).2.1 = true :=
      (execute_stage_go_all_success exec H s.tasks c).1
    have ih := execute_pipeline_go_all_success exec H ss
      (execute_stage_go exec s.tasks c).2.2.2
    simp [execute_pipeline_go, execute_stage, hs, ih.1, ih.2.1, ih.2.2]

/-- If the stage loop reports failure, the task-result list splits as a
prefix of successful results followed by a single failing last result, and
the stage error is that of the failing task. -/
theorem execute_stage_go_failed {Ctx : Type} (exec : Task → Ctx → TaskResult × Ctx) :
    ∀ (ts : List Task) (c : Ctx),
      (execute_stage_go exec ts c).2.1 = false →
      ∃ pre last, (execute_stage_go exec ts c).1 = pre ++ [last] ∧
        (∀ r ∈ pre, r.success = true) ∧ last.success = false
  | [], c => by simp [execute_stage_go]
  | t :: ts, c => by
    intro hflag
    by_cases h : (exec t c).1.success = true
    · simp only [execute_stage_go, h, if_true] at hflag ⊢
      obtain ⟨pre, last, h1, h2, h3⟩ := execute_stage_go_failed exec ts (exec t c).2 hflag
      exact ⟨(exec t c).1 :: pre, last, by simp [h1], by
        intro r hr
        rcases List.mem_cons.mp hr with h' | h'
        · exact h' ▸ h
        · exact h2 r h', h3⟩
    · have h' : (exec t c).1.success = false := by
        cases hb : (exec t c).1.success
        · rfl
        · exact absurd hb h
      exact ⟨[], (exec t c).1, by simp [execute_stage_go, h'], by simp, h'⟩

/-- Success of the whole pipeline loop means every appended stage result
succeeded and there is one result per stage. -/
theorem execute_pipeline_go_flag_true {Ctx : Type} (exec : Task → Ctx → TaskResult × Ctx) :
    ∀ (ss : List Stage) (c : Ctx),
      (execute_pipeline_go exec ss c).2.1 = true →
      (∀ x ∈ (execute_pipeline_go exec ss c).1, x.success = true) ∧
      (execute_pipeline_go exec ss c).1.length = ss.length
  | [], c => by simp [execute_pipeline_go]
  | s :: ss, c => by
    intro hflag
    by_cases h : (execute_stage exec s c).1.success = true
    · simp only [execute_pipeline_go, h, if_true] at hflag ⊢
      obtain ⟨ih1, ih2⟩ := execute_pipeline_go_flag_true exec ss (execute_stage exec s c).2 hflag
      refine ⟨?_, by simp [ih2]⟩
      intro x hx
      rcases List.mem_cons.mp hx with h' | h'
      · exact h' ▸ h
      · exact ih1 x h'
    · simp only [execute_pipeline_go, h, if_false] at hflag
      simp at hflag

/-- Splitting the stage loop over list concatenation: if the first part
runs to success the loop continues into the second part from the threaded
context; otherwise it stops inside the first part. -/
theorem execute_pipeline_go_append {Ctx : Type} (exec : Task → Ctx → TaskResult × Ctx) :
    ∀ (l₁ l₂ : List Stage) (c : Ctx),
      execute_pipeline_go exec (l₁ ++ l₂) c =
        if (execute_pipeline_go exec l₁ c).2.1 then
          ((execute_pipeline_go exec l₁ c).1 ++
             (execute_pipeline_go exec l₂ (execute_pipeline_go exec l₁ c).2.2.2).1,
           (execute_pipeline_go exec l₂ (execute_pipeline_go exec l₁ c).2.2.2).2)
        else execute_pipeline_go exec l₁ c
  | [], l₂, c => by simp [execute_pipeline_go]
  | s :: ss, l₂, c => by
    have ih := execute_pipeline_go_append exec ss l₂ (execute_stage exec s c).2
    by_cases h : (execute_stage exec s c).1.success = true
    · simp only [List.cons_append, execute_pipeline_go, h, if_true, List.append_eq]
      rw [ih]
      by_cases hflag : (execute_pipeline_go exec ss (execute_stage exec s c).2).2.1 = true
      · simp [hflag]
      · simp only [Bool.not_eq_true] at hflag
        simp [hflag]
    · simp only [Bool.not_eq_true] at h
      simp [List.cons_append, execute_pipeline_go, h]

/-! ## Claim theorems about the Pipeline Engine -/

/-- C3: for every pipeline definition, if every task execution returns
success, then `execute_pipeline` returns a record with status `success` and
a stage-result list whose length equals the number of stages in the
definition, with stages executed (and their results recorded) in
declaration order. -/
theorem execute_pipeline_all_success {Ctx : Type} (exec : Task → Ctx → TaskResult × Ctx)
    (ptype : String) (stages : List Stage) (c : Ctx)
    (H : ∀ t c, (exec t c).1.success = true) :
    (execute_pipeline exec ptype stages c).1.status = PipelineStatus.success ∧
    (execute_pipeline exec ptype stages c).1.stages.length = stages.length ∧
    (execute_pipeline exec ptype stages c).1.stages.map StageResult.name =
      stages.map Stage.name := by
  have h := execute_pipeline_go_all_success exec H stages c
  simp [execute_pipeline, h.1, h.2.1, h.2.2]

/-- Task executor oracle for witnesses: every task succeeds. -/
def wExecOk : Task → Unit → TaskResult × Unit := fun _ c => (⟨true, none⟩, c)

/-- A two-stage pipeline definition used by the witnesses, mirroring the
checkout/compile shape of the repository's pipeline definitions. -/
def wStages : List Stage :=
  [⟨"checkout", [⟨"clone", "git_clone"⟩]⟩,
   ⟨"compile", [⟨"deps", "install"⟩, ⟨"make", "build"⟩]⟩]

theorem execute_pipeline_all_success_witness :
    (∀ t (c : Unit), (wExecOk t c).1.success = true) ∧
    ((execute_pipeline wExecOk "build" wStages ()).1.status = PipelineStatus.success ∧
     (execute_pipeline wExecOk "build" wStages ()).1.stages.length = wStages.length ∧
     (execute_pipeline wExecOk "build" wStages ()).1.stages.map StageResult.name =
       wStages.map Stage.name) :=
  ⟨fun _ _ => rfl, execute_pipeline_all_success wExecOk "build" wStages () (fun _ _ => rfl)⟩

/-- C2: for every execution whose first failing task occurs in stage `k`
(1-based, in declaration order — i.e. the run of the first `k - 1` stages
succeeds and stage `k` fails on this run's context), `execute_pipeline`
returns a record with status `failed` whose stage-result list has length at
most `k` (all results but the last successful, the last failed), and no
task after the failing task within that stage is executed: the failing
stage's task-result list is a successful prefix followed by the single
failing task's result. -/
theorem execute_pipeline_first_failure {Ctx : Type} (exec : Task → Ctx → TaskResult × Ctx)
    (ptype : String) (stages : List Stage) (c : Ctx) (k : Nat) (sk : Stage)
    (hk1 : 1 ≤ k)
    (hsk : stages.get? (k - 1) = some sk)
    (hpre : (execute_pipeline_go exec (stages.take (k - 1)) c).2.1 = true)
    (hfail : (execute_stage exec sk
        (execute_pipeline_go exec (stages.take (k - 1)) c).2.2.2).1.success = false) :
    (execute_pipeline exec ptype stages c).1.status = PipelineStatus.failed ∧
    (execute_pipeline exec ptype stages c).1.stages.length ≤ k ∧
    ∃ srPre sr, (execute_pipeline exec ptype stages c).1.stages = srPre ++ [sr] ∧
      (∀ x ∈ srPre, x.success = true) ∧ sr.success = false ∧
      ∃ tPre tLast, sr.tasks = tPre ++ [tLast] ∧
        (∀ x ∈ tPre, x.success = true) ∧ tLast.success = false := by
  have hlen : k - 1 < stages.length := by
    rw [List.get?_eq_getElem?] at hsk
    exact (List.getElem?_eq_some.mp hsk).1
  have hget : stages[k - 1] = sk := by
    rw [List.get?_eq_getElem?, List.getElem?_eq_some] at hsk
    exact hsk.2
  have hdrop : stages.drop (k - 1) = sk :: stages.drop k := by
    rw [List.drop_eq_getElem_cons hlen, hget]
    have : k - 1 + 1 = k := by omega
    rw [this]
  have hsplit : stages = stages.take (k - 1) ++ (sk :: stages.drop k) := by
    rw [← hdrop, List.take_append_drop]
  set q₁ := execute_pipeline_go exec (stages.take (k - 1)) c with hq₁
  have happ := execute_pipeline_go_append exec (stages.take (k - 1)) (sk :: stages.drop k) c
  have hcons : execute_pipeline_go exec (sk :: stages.drop k) q₁.2.2.2 =
      ([(execute_stage exec sk q₁.2.2.2).1], false,
       (execute_stage exec sk q₁.2.2.2).1.error, (execute_stage exec sk q₁.2.2.2).2) := by
    simp [execute_pipeline_go, hfail]
  have hrun : execute_pipeline_go exec stages c =
      (q₁.1 ++ [(execute_stage exec sk q₁.2.2.2).1], false,
       (execute_stage exec sk q₁.2.2.2).1.error, (execute_stage exec sk q₁.2.2.2).2) := by
    conv_lhs => rw [hsplit]
    rw [happ, if_pos hpre, hcons]
  have hq₁props := execute_pipeline_go_flag_true exec (stages.take (k - 1)) c hpre
  have hq₁len : q₁.1.length ≤ k - 1 := by
    rw [← hq₁] at hq₁props
    rw [hq₁props.2]
    simp [List.length_take]
  have hstagefail : (execute_stage_go exec sk.tasks q₁.2.2.2).2.1 = false := by
    simpa [execute_stage] using hfail
  obtain ⟨tPre, tLast, ht1, ht2, ht3⟩ :=
    execute_stage_go_failed exec sk.tasks q₁.2.2.2 hstagefail
  refine ⟨?_, ?_, q₁.1, (execute_stage exec sk q₁.2.2.2).1, ?_, ?_, hfail, tPre, tLast, ?_, ht2, ht3⟩
  · simp [execute_pipeline, hrun]
  · simp only [execute_pipeline, hrun]
    simp only [List.length_append, List.length_singleton]
    omega
  · simp [execute_pipeline, hrun]
  · intro x hx
    rw [← hq₁] at hq₁props
    exact hq₁props.1 x hx
  · simpa [execute_stage] using ht1

/-- Task executor oracle for the C2 witness: the task named `"make"`
fails, everything else succeeds. -/
def wExecFailMake : Task → Unit → TaskResult × Unit :=
  fun t c => (⟨t.name != "make", some "compile error"⟩, c)

theorem execute_pipeline_first_failure_witness :
    ((wStages.get? 1 = some ⟨"compile", [⟨"deps", "install"⟩, ⟨"make", "build"⟩]⟩) ∧
     (execute_pipeline_go wExecFailMake (wStages.take 1) ()).2.1 = true ∧
     (execute_stage wExecFailMake ⟨"compile", [⟨"deps", "install"⟩, ⟨"make", "build"⟩]⟩
        (execute_pipeline_go wExecFailMake (wStages.take 1) ()).2.2.2).1.success = false) ∧
    ((execute_pipeline wExecFailMake "build" wStages ()).1.status = PipelineStatus.failed ∧
     (execute_pipeline wExecFailMake "build" wStages ()).1.stages.length ≤ 2 ∧
     ∃ srPre sr, (execute_pipeline wExecFailMake "build" wStages ()).1.stages = srPre ++ [sr] ∧
       (∀ x ∈ srPre, x.success = true) ∧ sr.success = false ∧
       ∃ tPre tLast, sr.tasks = tPre ++ [tLast] ∧
         (∀ x ∈ tPre, x.success = true) ∧ tLast.success = false) :=
  ⟨⟨by decide, by decide, by decide⟩,
   execute_pipeline_first_failure wExecFailMake "build" wStages () 2
     ⟨"compile", [⟨"deps", "install"⟩, ⟨"make", "build"⟩]⟩
     (by decide) (by decide) (by decide) (by decide)⟩

/-! ## Claim theorem about task-level exception handling -/

/-- C4: an exception raised by a task action (modelled as `Except.error` of
the action oracle) is caught by `execute_task` and converted into a
structured failure result, an unrecognized action identifier yields a
failure result rather than an exception, and `execute_pipeline` built on
`execute_task` always returns a structured record whose status is `success`
or `failed` — no language-level exception propagates to the caller (both
functions are total and `Except`-free at their boundary). -/
theorem execute_task_no_exception {Ctx : Type}
    (runAction : String → Ctx → Except String (TaskResult × Ctx))
    (task : Task) (c : Ctx) :
    (task.action ∉ knownActions →
      execute_task runAction task c =
        (⟨false, some ("Unknown action: " ++ task.action)⟩, c)) ∧
    (∀ e, task.action ∈ knownActions → runAction task.action c = .error e →
      execute_task runAction task c = (⟨false, some e⟩, c)) ∧
    ∀ (ptype : String) (stages : List Stage),
      (execute_pipeline (execute_task runAction) ptype stages c).1.status =
          PipelineStatus.success ∨
      (execute_pipeline (execute_task runAction) ptype stages c).1.status =
          PipelineStatus.failed := by
  refine ⟨?_, ?_, ?_⟩
  · intro hmem
    simp [execute_task, hmem]
  · intro e hmem herr
    simp [execute_task, hmem, herr]
  · intro ptype stages
    by_cases hflag : (execute_pipeline_go (execute_task runAction) stages c).2.1 = true
    · left; simp [execute_pipeline, hflag]
    · right
      simp only [Bool.not_eq_true] at hflag
      simp [execute_pipeline, hflag]

/-- Action oracle for the C4 witness: every known action raises. -/
def wRaise : String → Unit → Except String (TaskResult × Unit) := fun _ _ => .error "boom"

theorem execute_task_no_exception_witness :
    execute_task wRaise ⟨"x", "noop"⟩ () =
      (⟨false, some ("Unknown action: " ++ "noop")⟩, ()) ∧
    execute_task wRaise ⟨"make", "build"⟩ () = (⟨false, some "boom"⟩, ()) ∧
    ((execute_pipeline (execute_task wRaise) "build" wStages ()).1.status =
        PipelineStatus.success ∨
     (execute_pipeline (execute_task wRaise) "build" wStages ()).1.status =
        PipelineStatus.failed) :=
  ⟨(execute_task_no_exception wRaise ⟨"x", "noop"⟩ ()).1 (by decide),
   (execute_task_no_exception wRaise ⟨"make", "build"⟩ ()).2.1 "boom" (by decide) rfl,
   (execute_task_no_exception wRaise ⟨"make", "build"⟩ ()).2.2 "build" wStages⟩

/-! ## Run Registry and cancellation -/

/-- A run record held in `PipelineManager.active_pipelines`: pipeline type,
status, recorded end time (`datetime.now()` modelled as a `Nat` timestamp),
the stage results and the terminal error. -/
structure RunRec where
  ptype : String
  status : PipelineStatus
  endTime : Option Nat
  stages : List StageResult
  error : Option String
  deriving DecidableEq, Repr

/-- Lookup in the `active_pipelines` dictionary (`pipeline_id in self.active_pipelines`
followed by `self.active_pipelines[pipeline_id]`). -/
def lookupRun : List (String × RunRec) → String → Option RunRec
  | [], _ => none
  | (i, r) :: rest, rid => if i = rid then some r else lookupRun rest rid

/-- In-place mutation of one record of the dictionary. -/
def updateRun : List (String × RunRec) → String → RunRec → List (String × RunRec)
  | [], _, _ => []
  | (i, r) :: rest, rid, r' =>
    if i = rid then (i, r') :: rest else (i, r) :: updateRun rest rid r'

/-- Embedding of `PipelineManager.cancel_pipeline` (lines 404-423): if the id is present
and the record's status is `RUNNING`, set status to `CANCELLED`, record
`end_time`, and return `True`; in every other case return `False` without
touching the registry. -/
def cancel_pipeline (reg : List (String × RunRec)) (rid : String) (now : Nat) :
    List (String × RunRec) × Bool :=
  match lookupRun reg rid with
  | some r0 =>
    if r0.status = PipelineStatus.running then
      (updateRun reg rid ⟨r0.ptype, PipelineStatus.cancelled, some now, r0.stages, r0.error⟩,
       true)
    else (reg, false)
  | none => (reg, false)

theorem lookupRun_updateRun (reg : List (String × RunRec)) (rid : String) (r' : RunRec)
    (h : (lookupRun reg rid).isSome) :
    lookupRun (updateRun reg rid r') rid = some r' := by
  induction reg with
  | nil => simp [lookupRun] at h
  | cons p rest ih =>
    obtain ⟨i, r⟩ := p
    by_cases hi : i = rid
    · simp [lookupRun, updateRun, hi]
    · simp only [lookupRun, updateRun, hi, if_false, if_neg hi] at h ⊢
      exact ih h

/-- C6: cancelling a run whose record is `running` sets the status to
`cancelled`, records an end time, and returns `True`; cancelling a run whose
record is already terminal (`success`, `failed` or `cancelled`) returns
`False` and leaves the registry — hence every field of the record —
unchanged. -/
theorem cancel_pipeline_spec (reg : List (String × RunRec)) (rid : String) (now : Nat)
    (r0 : RunRec) (hlook : lookupRun reg rid = some r0) :
    (r0.status = PipelineStatus.running →
      (cancel_pipeline reg rid now).2 = true ∧
      lookupRun (cancel_pipeline reg rid now).1 rid =
        some ⟨r0.ptype, PipelineStatus.cancelled, some now, r0.stages, r0.error⟩) ∧
    ((r0.status = PipelineStatus.success ∨ r0.status = PipelineStatus.failed ∨
        r0.status = PipelineStatus.cancelled) →
      (cancel_pipeline reg rid now).2 = false ∧
      (cancel_pipeline reg rid now).1 = reg ∧
      lookupRun (cancel_pipeline reg rid now).1 rid = some r0) := by
  constructor
  · intro hrun
    have h2 : lookupRun (updateRun reg rid
        ⟨r0.ptype, PipelineStatus.cancelled, some now, r0.stages, r0.error⟩) rid =
        some ⟨r0.ptype, PipelineStatus.cancelled, some now, r0.stages, r0.error⟩ :=
      lookupRun_updateRun reg rid _ (by simp [hlook])
    simp [cancel_pipeline, hlook, hrun, h2]
  · intro hterm
    have hne : ¬ r0.status = PipelineStatus.running := by
      rcases hterm with h | h | h <;> simp [h]
    simp [cancel_pipeline, hlook, hne]

/-- A registry with one running and one terminal run, for the C6 witness. -/
def wReg : List (String × RunRec) :=
  [("run-1", ⟨"build", PipelineStatus.running, none, [], none⟩),
   ("run-2", ⟨"test", PipelineStatus.success, some 5, [], none⟩)]

theorem cancel_pipeline_spec_witness :
    (lookupRun wReg "run-1" = some ⟨"build", PipelineStatus.running, none, [], none⟩) ∧
    ((cancel_pipeline wReg "run-1" 7).2 = true ∧
     lookupRun (cancel_pipeline wReg "run-1" 7).1 "run-1" =
       some ⟨"build", PipelineStatus.cancelled, some 7, [], none⟩) :=
  ⟨by decide,
   (cancel_pipeline_spec wReg "run-1" 7 ⟨"build", PipelineStatus.running, none, [], none⟩
      (by decide)).1 rfl⟩

/-! ## Cooperative cancellation and the engine's task loop -/

/-- Interleaved-cancellation model of the task loop of
`PipelineManager._execute_stage` (lines 381-389) running under the shared
`active_pipelines` record.  Before the task at 0-based boundary `b` is
launched, an external `cancel_pipeline` call may be interleaved
(`cancelAt b = true`); per lines 416-421 it sets the shared record's status
to `CANCELLED` when the status is `RUNNING`.  The loop body itself is
translated unchanged from the source: it contains no read of the record's
status, so the next task is launched regardless of the flag.  Returns the
names of the launched tasks, the record status after the loop, and the
threaded context. -/
def execute_stage_with_cancel {Ctx : Type} (exec : Task → Ctx → TaskResult × Ctx)
    (cancelAt : Nat → Bool) :
    List Task → Nat → PipelineStatus → Ctx → List String × PipelineStatus × Ctx
  | [], _, st, c => ([], st, c)
  | t :: ts, b, st, c =>
    let st' := if cancelAt b = true ∧ st = PipelineStatus.running
               then PipelineStatus.cancelled else st
    let p := exec t c
    if p.1.success then
      let q := execute_stage_with_cancel exec cancelAt ts (b + 1) st' p.2
      (t.name :: q.1, q.2)
    else ([t.name], st', p.2)

/-- C7 counterexample: a two-task stage in which every task succeeds and the
record is cancelled at boundary 1 (after the first task finishes, before the
second starts).  The record's status is `cancelled` from that boundary on,
yet the engine still launches the second task: the launched list is
`["deps", "make"]`, not `["deps"]` as the claim requires. -/
theorem cancel_flag_ignored_counterexample :
    (execute_stage_with_cancel wExecOk (fun b => b == 1)
        [⟨"deps", "install"⟩, ⟨"make", "build"⟩] 0 PipelineStatus.running ()).1 =
      ["deps", "make"] ∧
    (execute_stage_with_cancel wExecOk (fun b => b == 1)
        [⟨"deps", "install"⟩, ⟨"make", "build"⟩] 0 PipelineStatus.running ()).2.1 =
      PipelineStatus.cancelled := by
  decide

/-- C7 amended: the Pipeline Engine never observes the cancellation flag.
Whatever cancellations are interleaved at task boundaries, the set of tasks
the engine launches is exactly the one launched with no cancellation at all
— cancellation changes only the record's status field, and an in-flight run
keeps launching its remaining tasks. -/
theorem cancel_never_observed {Ctx : Type} (exec : Task → Ctx → TaskResult × Ctx)
    (cancelAt : Nat → Bool) :
    ∀ (ts : List Task) (b b' : Nat) (st st' : PipelineStatus) (c : Ctx),
      (execute_stage_with_cancel exec cancelAt ts b st c).1 =
      (execute_stage_with_cancel exec (fun _ => false) ts b' st' c).1
  | [], _, _, _, _, _ => rfl
  | t :: ts, b, b', st, st', c => by
    by_cases h : (exec t c).1.success = true
    · simp only [execute_stage_with_cancel, h, if_true]
      have ih := cancel_never_observed exec cancelAt ts (b + 1) (b' + 1)
        (if cancelAt b = true ∧ st = PipelineStatus.running
         then PipelineStatus.cancelled else st)
        (if (fun _ => false) b' = true ∧ st' = PipelineStatus.running
         then PipelineStatus.cancelled else st')
        (exec t c).2
      simp [ih]
    · simp only [Bool.not_eq_true] at h
      simp [execute_stage_with_cancel, h]

/-! ## The orchestration layer: trigger, recovery loop, change monitor

`CICDOrchestrator` in `orchestrator.py`.  Outcomes of the external world —
what a `PipelineManager.execute_pipeline` run returns, whether a fix attempt
applies successfully — are supplied as oracle parameters; the control flow is
translated from the source.  Each function also returns the ordered list of
observable events it causes: calls into `execute_pipeline` (each of which
registers a new RunRecord), alerts sent through `Alerter.send_alert`, fix
attempts, git fetches and pulls. -/

/-- The dynamic value of the `"status"` key of a trigger result dictionary:
either a `PipelineStatus` enum member (as produced by `execute_pipeline`) or
a plain string such as `"disabled"` (line 248) or `"error"` (line 254). -/
inductive StatusVal
  | enum (s : PipelineStatus)
  | str (s : String)
  deriving DecidableEq, Repr

/-- The dictionary returned by `CICDOrchestrator.trigger_pipeline`: its
`"status"` value, its `"type"` key when present (set by `execute_pipeline`),
and its `"error"` value. -/
structure TriggerResult where
  status : StatusVal
  ptype : Option String
  error : Option String
  deriving DecidableEq, Repr

/-- Observable events of the orchestration layer.  An `alert` carries the
severity, the title, and — for the fix-resolved alert of line 355-359, whose
message names the successful attempt — the named attempt number. -/
inductive Event
  | triggerCall (ptype : String)
  | executeRun (ptype : String)
  | alert (sev : AlertSeverity) (title : String) (attempt : Option Nat)
  | fixAttempt (n : Nat)
  | fetch
  | pull
  deriving DecidableEq, Repr

/-- The configuration values `CICDOrchestrator` reads: per-pipeline
`enabled` flag (default `True`, line 246), the keys of
`pipeline_definitions` (line 251), `orchestrator.auto_fix_enabled`
(default `True`, line 332), `orchestrator.max_fix_attempts` (default 3,
line 337) and `pipelines.deploy.auto_deploy` (default `False`, line 223). -/
structure OrchConfig where
  enabled : String → Bool
  knownTypes : List String
  autoFixEnabled : Bool
  maxFixAttempts : Nat
  autoDeploy : Bool

/-- Embedding of `CICDOrchestrator.trigger_pipeline` (lines 232-320) on the
exception-free path.  The outcome of the inner
`PipelineManager.execute_pipeline` call is supplied as
`execStatus`/`execErr`, since the run's outcome is determined by the
external task actions.  A disabled pipeline returns the bare dictionary
`("status": "disabled")` of line 248 before anything executes; an unknown
pipeline type returns the error dictionary of line 254.  Otherwise the run
executes and an info or error alert is sent (lines 291-302).  (The
`.title()` capitalization of the alert titles is not modelled.) -/
def trigger_pipeline (cfg : OrchConfig) (ptype : String)
    (execStatus : PipelineStatus) (execErr : Option String) :
    TriggerResult × List Event :=
  if cfg.enabled ptype = false then
    (⟨StatusVal.str "disabled", none, none⟩, [Event.triggerCall ptype])
  else if ptype ∉ cfg.knownTypes then
    (⟨StatusVal.str "error", none, some ("Unknown pipeline: " ++ ptype)⟩,
     [Event.triggerCall ptype])
  else
    (⟨StatusVal.enum execStatus, some ptype, execErr⟩,
     [Event.triggerCall ptype, Event.executeRun ptype,
      if execStatus = PipelineStatus.success then
        Event.alert AlertSeverity.info (ptype ++ " Pipeline Succeeded") none
      else
        Event.alert AlertSeverity.error (ptype ++ " Pipeline Failed") none])

/-- The retry loop of `CICDOrchestrator.handle_failure` (lines 341-367),
over the list of remaining attempt numbers (`range(1, max_attempts + 1)`).
`fixOutcome a` is whether the `_attempt_fix` call of attempt `a` reports
success; `retryStatus a`/`retryErr a` is the outcome of the
`execute_pipeline` run inside the retry `trigger_pipeline` call of attempt
`a`.  A successful retry returns immediately after the resolved alert
(lines 352-361); once the attempt list is exhausted the critical alert of
lines 372-376 is sent. -/
def handle_failure_go (cfg : OrchConfig) (ptype : String) (fixOutcome : Nat → Bool)
    (retryStatus : Nat → PipelineStatus) (retryErr : Nat → Option String) :
    List Nat → List Event
  | [] => [Event.alert AlertSeverity.critical (ptype ++ " Auto-Fix Failed") none]
  | a :: rest =>
    if fixOutcome a then
      let tr := trigger_pipeline cfg ptype (retryStatus a) (retryErr a)
      if tr.1.status = StatusVal.enum PipelineStatus.success then
        Event.fixAttempt a ::
          (tr.2 ++ [Event.alert AlertSeverity.info (ptype ++ " Fixed Successfully") (some a)])
      else
        Event.fixAttempt a ::
          (tr.2 ++ handle_failure_go cfg ptype fixOutcome retryStatus retryErr rest)
    else
      Event.fixAttempt a :: handle_failure_go cfg ptype fixOutcome retryStatus retryErr rest

/-- Embedding of `CICDOrchestrator.handle_failure` (lines 322-376): nothing happens when
auto-fix is disabled; otherwise the retry loop runs over attempts
`1 .. max_fix_attempts`. -/
def handle_failure (cfg : OrchConfig) (ptype : String) (fixOutcome : Nat → Bool)
    (retryStatus : Nat → PipelineStatus) (retryErr : Nat → Option String) : List Event :=
  if cfg.autoFixEnabled = false then []
  else handle_failure_go cfg ptype fixOutcome retryStatus retryErr
    (List.range' 1 cfg.maxFixAttempts)

/-- Embedding of `CICDOrchestrator._trigger_ci_pipeline` (lines 210-230): trigger build;
only on build success trigger test; only on test success (and with
auto-deploy enabled) trigger deploy; a build or test failure is handed to
`handle_failure` with the failed result's `"type"` value (`"unknown"` when
the key is absent, line 338). -/
def trigger_ci_pipeline (cfg : OrchConfig)
    (buildStatus testStatus deployStatus : PipelineStatus)
    (buildErr testErr deployErr : Option String)
    (fixOutcome : Nat → Bool) (retryStatus : Nat → PipelineStatus)
    (retryErr : Nat → Option String) : List Event :=
  let b := trigger_pipeline cfg "build" buildStatus buildErr
  if b.1.status = StatusVal.enum PipelineStatus.success then
    let t := trigger_pipeline cfg "test" testStatus testErr
    if t.1.status = StatusVal.enum PipelineStatus.success then
      if cfg.autoDeploy then
        b.2 ++ t.2 ++ (trigger_pipeline cfg "deploy" deployStatus deployErr).2
      else b.2 ++ t.2
    else
      b.2 ++ t.2 ++
        handle_failure cfg (t.1.ptype.getD "unknown") fixOutcome retryStatus retryErr
  else
    b.2 ++ handle_failure cfg (b.1.ptype.getD "unknown") fixOutcome retryStatus retryErr

/-- Embedding of `CICDOrchestrator.monitor_changes` (lines 173-208) on the
exception-free path: return immediately when no repository is configured
(line 175); fetch (line 183); return when the remote branch is absent
(lines 190-193); when the local and remote heads differ, pull (line 201)
and trigger the CI chain (line 205); when they are equal, do nothing
further. -/
def monitor_changes (cfg : OrchConfig) (repoConfigured branchFound : Bool)
    (currentSha remoteSha : String)
    (buildStatus testStatus deployStatus : PipelineStatus)
    (buildErr testErr deployErr : Option String)
    (fixOutcome : Nat → Bool) (retryStatus : Nat → PipelineStatus)
    (retryErr : Nat → Option String) : List Event :=
  if repoConfigured = false then []
  else
    Event.fetch ::
      (if branchFound = false then []
       else if currentSha ≠ remoteSha then
         Event.pull :: trigger_ci_pipeline cfg buildStatus testStatus deployStatus
           buildErr testErr deployErr fixOutcome retryStatus retryErr
       else [])

/-- Event classifiers used by the claim statements. -/
def Event.isFixAttempt : Event → Bool
  | .fixAttempt _ => true
  | _ => false

def Event.attemptNum : Event → Option Nat
  | .fixAttempt n => some n
  | _ => none

def Event.isCriticalAlert : Event → Bool
  | .alert AlertSeverity.critical _ _ => true
  | _ => false

def Event.isAlert : Event → Bool
  | .alert _ _ _ => true
  | _ => false

def Event.isExecuteRun : Event → Bool
  | .executeRun _ => true
  | _ => false

def Event.isPull : Event → Bool
  | .pull => true
  | _ => false

def Event.isTriggerOf (p : String) : Event → Bool
  | .triggerCall q => q == p
  | _ => false

/-! ### Helper lemmas about trigger and recovery events -/

theorem trigger_pipeline_events_benign (cfg : OrchConfig) (ptype : String)
    (st : PipelineStatus) (err : Option String) :
    ((trigger_pipeline cfg ptype st err).2.filter Event.isCriticalAlert = [] ∧
     (trigger_pipeline cfg ptype st err).2.filterMap Event.attemptNum = []) ∧
    ((trigger_pipeline cfg ptype st err).2.filter Event.isPull = [] ∧
     ∀ q, q ≠ ptype → (trigger_pipeline cfg ptype st err).2.filter (Event.isTriggerOf q) = []) := by
  have hq' : ∀ q, q ≠ ptype → (ptype == q) = false :=
    fun q hq => beq_eq_false_iff_ne.mpr (fun h => hq h.symm)
  unfold trigger_pipeline
  split
  · refine ⟨⟨rfl, rfl⟩, rfl, ?_⟩
    intro q hq
    simp [List.filter, Event.isTriggerOf, hq' q hq]
  · split
    · refine ⟨⟨rfl, rfl⟩, rfl, ?_⟩
      intro q hq
      simp [List.filter, Event.isTriggerOf, hq' q hq]
    · by_cases hst : st = PipelineStatus.success
      · refine ⟨⟨?_, ?_⟩, ?_, ?_⟩
        · simp [hst, List.filter, Event.isCriticalAlert]
        · simp [hst, List.filterMap, Event.attemptNum]
        · simp [hst, List.filter, Event.isPull]
        · intro q hq
          simp [hst, List.filter, Event.isTriggerOf, hq' q hq]
      · refine ⟨⟨?_, ?_⟩, ?_, ?_⟩
        · simp [hst, List.filter, Event.isCriticalAlert]
        · simp [hst, List.filterMap, Event.attemptNum]
        · simp [hst, List.filter, Event.isPull]
        · intro q hq
          simp [hst, List.filter, Event.isTriggerOf, hq' q hq]

theorem trigger_pipeline_status_ne_success (cfg : OrchConfig) (ptype : String)
    (st : PipelineStatus) (err : Option String) (h : st ≠ PipelineStatus.success) :
    (trigger_pipeline cfg ptype st err).1.status ≠ StatusVal.enum PipelineStatus.success := by
  unfold trigger_pipeline
  split
  · simp
  · split
    · simp
    · simpa using h

theorem trigger_pipeline_status_success (cfg : OrchConfig) (ptype : String)
    (err : Option String) (hen : cfg.enabled ptype = true) (hkn : ptype ∈ cfg.knownTypes) :
    (trigger_pipeline cfg ptype PipelineStatus.success err).1.status =
      StatusVal.enum PipelineStatus.success := by
  simp [trigger_pipeline, hen, hkn]

/-- When no retry triggered by a successful fix ever reaches `success`,
the retry loop runs through its whole attempt list and ends with exactly the
critical exhausted alert, one `_attempt_fix` call per listed attempt. -/
theorem handle_failure_go_exhausts (cfg : OrchConfig) (ptype : String)
    (fixOutcome : Nat → Bool) (retryStatus : Nat → PipelineStatus)
    (retryErr : Nat → Option String)
    (H : ∀ a, fixOutcome a = true → retryStatus a ≠ PipelineStatus.success) :
    ∀ L : List Nat, ∃ pre,
      handle_failure_go cfg ptype fixOutcome retryStatus retryErr L =
        pre ++ [Event.alert AlertSeverity.critical (ptype ++ " Auto-Fix Failed") none] ∧
      pre.filter Event.isCriticalAlert = [] ∧
      (handle_failure_go cfg ptype fixOutcome retryStatus retryErr L).filterMap
        Event.attemptNum = L
  | [] => ⟨[], rfl, rfl, rfl⟩
  | a :: rest => by
    obtain ⟨pre, h1, h2, h3⟩ :=
      handle_failure_go_exhausts cfg ptype fixOutcome retryStatus retryErr H rest
    by_cases hf : fixOutcome a = true
    · have hne := trigger_pipeline_status_ne_success cfg ptype (retryStatus a)
        (retryErr a) (H a hf)
      have hben := trigger_pipeline_events_benign cfg ptype (retryStatus a) (retryErr a)
      refine ⟨Event.fixAttempt a ::
        ((trigger_pipeline cfg ptype (retryStatus a) (retryErr a)).2 ++ pre), ?_, ?_, ?_⟩
      · simp [handle_failure_go, hf, hne, h1]
      · simp [List.filter_append, List.filter, Event.isCriticalAlert, hben.1.1, h2]
      · simp [handle_failure_go, hf, hne, List.filterMap_append, List.filterMap,
          Event.attemptNum, hben.1.2, h3]
    · refine ⟨Event.fixAttempt a :: pre, ?_, ?_, ?_⟩
      · simp [handle_failure_go, hf, h1]
      · simp [List.filter, Event.isCriticalAlert, h2]
      · simp [handle_failure_go, hf, List.filterMap, Event.attemptNum, h3]

theorem filter_isFixAttempt_length (evs : List Event) :
    (evs.filter Event.isFixAttempt).length = (evs.filterMap Event.attemptNum).length := by
  induction evs with
  | nil => rfl
  | cons e rest ih =>
    cases e <;> simp [List.filter, List.filterMap, Event.isFixAttempt, Event.attemptNum, ih]

/-- C1: with auto-fix enabled and `max_fix_attempts = N`, if every fix
attempt fails or the retry run it triggers fails (no retry ever reaches
status `success`), then `handle_failure` makes exactly `N` fix attempts
(numbered `1 .. N` — no `N+1`-th attempt is started) and emits exactly one
critical-severity alert, positioned after everything else. -/
theorem handle_failure_exhausted (cfg : OrchConfig) (ptype : String)
    (fixOutcome : Nat → Bool) (retryStatus : Nat → PipelineStatus)
    (retryErr : Nat → Option String)
    (hauto : cfg.autoFixEnabled = true)
    (H : ∀ a, fixOutcome a = true → retryStatus a ≠ PipelineStatus.success) :
    ((handle_failure cfg ptype fixOutcome retryStatus retryErr).filter
        Event.isFixAttempt).length = cfg.maxFixAttempts ∧
    (∀ a, Event.fixAttempt a ∈ handle_failure cfg ptype fixOutcome retryStatus retryErr →
      1 ≤ a ∧ a ≤ cfg.maxFixAttempts) ∧
    ((handle_failure cfg ptype fixOutcome retryStatus retryErr).filter
        Event.isCriticalAlert).length = 1 ∧
    ∃ pre, handle_failure cfg ptype fixOutcome retryStatus retryErr =
        pre ++ [Event.alert AlertSeverity.critical (ptype ++ " Auto-Fix Failed") none] ∧
      pre.filter Event.isCriticalAlert = [] := by
  obtain ⟨pre, h1, h2, h3⟩ := handle_failure_go_exhausts cfg ptype fixOutcome retryStatus
    retryErr H (List.range' 1 cfg.maxFixAttempts)
  have hev : handle_failure cfg ptype fixOutcome retryStatus retryErr =
      handle_failure_go cfg ptype fixOutcome retryStatus retryErr
        (List.range' 1 cfg.maxFixAttempts) := by
    simp [handle_failure, hauto]
  refine ⟨?_, ?_, ?_, pre, by rw [hev, h1], h2⟩
  · rw [hev, filter_isFixAttempt_length, h3]
    simp
  · intro a ha
    rw [hev] at ha
    have : a ∈ (handle_failure_go cfg ptype fixOutcome retryStatus retryErr
        (List.range' 1 cfg.maxFixAttempts)).filterMap Event.attemptNum :=
      List.mem_filterMap.mpr ⟨Event.fixAttempt a, ha, rfl⟩
    rw [h3] at this
    have := List.mem_range'_1.mp this
    omega
  · rw [hev, h1, List.filter_append, h2]
    simp [List.filter, Event.isCriticalAlert]

/-- The configuration used by the orchestration-layer witnesses: all three
pipelines enabled and known, auto-fix enabled, two fix attempts. -/
def wCfg : OrchConfig :=
  ⟨fun _ => true, ["build", "test", "deploy"], true, 2, false⟩

theorem handle_failure_exhausted_witness :
    (wCfg.autoFixEnabled = true ∧
     ∀ a, (fun _ : Nat => true) a = true →
       (fun _ : Nat => PipelineStatus.failed) a ≠ PipelineStatus.success) ∧
    (((handle_failure wCfg "build" (fun _ => true) (fun _ => PipelineStatus.failed)
         (fun _ => none)).filter Event.isFixAttempt).length = wCfg.maxFixAttempts ∧
     (∀ a, Event.fixAttempt a ∈ handle_failure wCfg "build" (fun _ => true)
         (fun _ => PipelineStatus.failed) (fun _ => none) →
       1 ≤ a ∧ a ≤ wCfg.maxFixAttempts) ∧
     ((handle_failure wCfg "build" (fun _ => true) (fun _ => PipelineStatus.failed)
         (fun _ => none)).filter Event.isCriticalAlert).length = 1 ∧
     ∃ pre, handle_failure wCfg "build" (fun _ => true) (fun _ => PipelineStatus.failed)
         (fun _ => none) =
         pre ++ [Event.alert AlertSeverity.critical ("build" ++ " Auto-Fix Failed") none] ∧
       pre.filter Event.isCriticalAlert = []) :=
  ⟨⟨rfl, fun _ _ h => PipelineStatus.noConfusion h⟩,
   handle_failure_exhausted wCfg "build" (fun _ => true) (fun _ => PipelineStatus.failed)
     (fun _ => none) rfl (fun _ _ h => PipelineStatus.noConfusion h)⟩

/-- When the attempts of `L₁` all fail and attempt `k` has a successful fix
whose retry run succeeds, the retry loop over `L₁ ++ k :: L₂` stops right
after the resolved alert naming attempt `k`, having made exactly the
attempts `L₁ ++ [k]` and sent no critical alert. -/
theorem handle_failure_go_resolves (cfg : OrchConfig) (ptype : String)
    (fixOutcome : Nat → Bool) (retryStatus : Nat → PipelineStatus)
    (retryErr : Nat → Option String)
    (hen : cfg.enabled ptype = true) (hkn : ptype ∈ cfg.knownTypes) (k : Nat)
    (hfix : fixOutcome k = true) (hsucc : retryStatus k = PipelineStatus.success) :
    ∀ (L₁ L₂ : List Nat),
      (∀ j ∈ L₁, fixOutcome j = true → retryStatus j ≠ PipelineStatus.success) →
      ∃ pre,
        handle_failure_go cfg ptype fixOutcome retryStatus retryErr (L₁ ++ k :: L₂) =
          pre ++ [Event.alert AlertSeverity.info (ptype ++ " Fixed Successfully") (some k)] ∧
        pre.filter Event.isCriticalAlert = [] ∧
        (handle_failure_go cfg ptype fixOutcome retryStatus retryErr
          (L₁ ++ k :: L₂)).filterMap Event.attemptNum = L₁ ++ [k]
  | [], L₂, _ => by
    have hst : (trigger_pipeline cfg ptype (retryStatus k) (retryErr k)).1.status =
        StatusVal.enum PipelineStatus.success := by
      rw [hsucc]
      exact trigger_pipeline_status_success cfg ptype (retryErr k) hen hkn
    have hben := trigger_pipeline_events_benign cfg ptype (retryStatus k) (retryErr k)
    refine ⟨Event.fixAttempt k :: (trigger_pipeline cfg ptype (retryStatus k) (retryErr k)).2,
      ?_, ?_, ?_⟩
    · simp [handle_failure_go, hfix, hst]
    · simp [List.filter, Event.isCriticalAlert, hben.1.1]
    · simp [handle_failure_go, hfix, hst, List.filterMap_append, List.filterMap,
        Event.attemptNum, hben.1.2]
  | j :: L₁, L₂, Hf => by
    obtain ⟨pre, h1, h2, h3⟩ := handle_failure_go_resolves cfg ptype fixOutcome retryStatus
      retryErr hen hkn k hfix hsucc L₁ L₂ (fun x hx => Hf x (List.mem_cons_of_mem j hx))
    by_cases hf : fixOutcome j = true
    · have hne := trigger_pipeline_status_ne_success cfg ptype (retryStatus j)
        (retryErr j) (Hf j (List.mem_cons_self j L₁) hf)
      have hben := trigger_pipeline_events_benign cfg ptype (retryStatus j) (retryErr j)
      refine ⟨Event.fixAttempt j ::
        ((trigger_pipeline cfg ptype (retryStatus j) (retryErr j)).2 ++ pre), ?_, ?_, ?_⟩
      · simp [handle_failure_go, hf, hne, h1]
      · simp [List.filter_append, List.filter, Event.isCriticalAlert, hben.1.1, h2]
      · simp [handle_failure_go, hf, hne, List.filterMap_append, List.filterMap,
          Event.attemptNum, hben.1.2, h3]
    · refine ⟨Event.fixAttempt j :: pre, ?_, ?_, ?_⟩
      · simp [handle_failure_go, hf, h1]
      · simp [List.filter, Event.isCriticalAlert, h2]
      · simp [handle_failure_go, hf, List.filterMap, Event.attemptNum, h3]

/-- C8: with auto-fix enabled, `max_fix_attempts = N` and the handled
pipeline type enabled and known, if attempts `1 .. k-1` all fail
(`k ≤ N`), attempt `k`'s fix applies, and the retry run of attempt `k`
has status `success`, then `handle_failure` returns immediately after
attempt `k`: its last event is the informational resolved alert naming
attempt `k`, the fix attempts made are exactly `1 .. k` (attempt `k+1` is
never started), and no critical alert is emitted. -/
theorem handle_failure_resolved (cfg : OrchConfig) (ptype : String)
    (fixOutcome : Nat → Bool) (retryStatus : Nat → PipelineStatus)
    (retryErr : Nat → Option String) (k : Nat)
    (hauto : cfg.autoFixEnabled = true)
    (hen : cfg.enabled ptype = true) (hkn : ptype ∈ cfg.knownTypes)
    (hk1 : 1 ≤ k) (hkN : k ≤ cfg.maxFixAttempts)
    (Hearly : ∀ j, 1 ≤ j → j < k → fixOutcome j = true →
      retryStatus j ≠ PipelineStatus.success)
    (hfix : fixOutcome k = true) (hsucc : retryStatus k = PipelineStatus.success) :
    (∃ pre, handle_failure cfg ptype fixOutcome retryStatus retryErr =
        pre ++ [Event.alert AlertSeverity.info (ptype ++ " Fixed Successfully") (some k)]) ∧
    (handle_failure cfg ptype fixOutcome retryStatus retryErr).filterMap
        Event.attemptNum = List.range' 1 k ∧
    (handle_failure cfg ptype fixOutcome retryStatus retryErr).filter
        Event.isCriticalAlert = [] := by
  have hsplit : List.range' 1 cfg.maxFixAttempts =
      List.range' 1 (k - 1) ++ k :: List.range' (k + 1) (cfg.maxFixAttempts - k) := by
    have h1 : List.range' 1 (k - 1) ++ List.range' (1 + (k - 1)) (cfg.maxFixAttempts - (k - 1)) =
        List.range' 1 cfg.maxFixAttempts := by
      have h := List.range'_append 1 (k - 1) (cfg.maxFixAttempts - (k - 1)) 1
      rw [Nat.one_mul, Nat.add_comm (cfg.maxFixAttempts - (k - 1)) (k - 1)] at h
      have e : (k - 1) + (cfg.maxFixAttempts - (k - 1)) = cfg.maxFixAttempts := by omega
      rw [e] at h
      exact h
    have h2 : List.range' (1 + (k - 1)) (cfg.maxFixAttempts - (k - 1)) =
        k :: List.range' (k + 1) (cfg.maxFixAttempts - k) := by
      have hk : 1 + (k - 1) = k := by omega
      have hn : cfg.maxFixAttempts - (k - 1) = (cfg.maxFixAttempts - k) + 1 := by omega
      rw [hk, hn]
      exact List.range'_succ k (cfg.maxFixAttempts - k) 1
    rw [← h1, h2]
  obtain ⟨pre, h1, h2, h3⟩ := handle_failure_go_resolves cfg ptype fixOutcome retryStatus
    retryErr hen hkn k hfix hsucc (List.range' 1 (k - 1))
    (List.range' (k + 1) (cfg.maxFixAttempts - k))
    (by
      intro j hj
      have := List.mem_range'_1.mp hj
      exact Hearly j this.1 (by omega))
  have hev : handle_failure cfg ptype fixOutcome retryStatus retryErr =
      handle_failure_go cfg ptype fixOutcome retryStatus retryErr
        (List.range' 1 (k - 1) ++ k :: List.range' (k + 1) (cfg.maxFixAttempts - k)) := by
    simp [handle_failure, hauto, hsplit]
  have hrk : List.range' 1 (k - 1) ++ [k] = List.range' 1 k := by
    have h := List.range'_append 1 (k - 1) 1 1
    have e1 : 1 + 1 * (k - 1) = k := by omega
    have e2 : 1 + (k - 1) = k := by omega
    rw [e1, e2] at h
    simpa [List.range'] using h
  refine ⟨⟨pre, by rw [hev, h1]⟩, ?_, ?_⟩
  · rw [hev, h3, hrk]
  · rw [hev, h1, List.filter_append, h2]
    simp [List.filter, Event.isCriticalAlert]

theorem handle_failure_resolved_witness :
    (wCfg.autoFixEnabled = true ∧ wCfg.enabled "build" = true ∧
     "build" ∈ wCfg.knownTypes ∧ 1 ≤ 2 ∧ 2 ≤ wCfg.maxFixAttempts) ∧
    ((∃ pre, handle_failure wCfg "build" (fun a => a == 2)
        (fun _ => PipelineStatus.success) (fun _ => none) =
        pre ++ [Event.alert AlertSeverity.info ("build" ++ " Fixed Successfully") (some 2)]) ∧
     (handle_failure wCfg "build" (fun a => a == 2) (fun _ => PipelineStatus.success)
        (fun _ => none)).filterMap Event.attemptNum = List.range' 1 2 ∧
     (handle_failure wCfg "build" (fun a => a == 2) (fun _ => PipelineStatus.success)
        (fun _ => none)).filter Event.isCriticalAlert = []) :=
  ⟨⟨rfl, rfl, by decide, by decide, by decide⟩,
   handle_failure_resolved wCfg "build" (fun a => a == 2) (fun _ => PipelineStatus.success)
     (fun _ => none) 2 rfl rfl (by decide) (by decide) (by decide)
     (fun j _ hj hf => by
       have : j = 2 := by simpa using hf
       omega)
     (by decide) rfl⟩

/-! ### Events of the change-monitor chain -/

theorem trigger_pipeline_self_trigger (cfg : OrchConfig) (p : String)
    (st : PipelineStatus) (err : Option String) :
    (trigger_pipeline cfg p st err).2.filter (Event.isTriggerOf p) = [Event.triggerCall p] := by
  unfold trigger_pipeline
  split
  · simp [List.filter, Event.isTriggerOf]
  · split
    · simp [List.filter, Event.isTriggerOf]
    · by_cases hst : st = PipelineStatus.success <;>
        simp [hst, List.filter, Event.isTriggerOf]

theorem trigger_pipeline_cases (cfg : OrchConfig) (p : String) (st : PipelineStatus)
    (err : Option String) :
    ((trigger_pipeline cfg p st err).1.ptype = some p ∧
      (trigger_pipeline cfg p st err).1.status = StatusVal.enum st) ∨
    ((trigger_pipeline cfg p st err).1.ptype = none ∧
      ∀ s, (trigger_pipeline cfg p st err).1.status ≠ StatusVal.enum s) := by
  unfold trigger_pipeline
  split
  · exact Or.inr ⟨rfl, fun s h => StatusVal.noConfusion h⟩
  · split
    · exact Or.inr ⟨rfl, fun s h => StatusVal.noConfusion h⟩
    · exact Or.inl ⟨rfl, rfl⟩

theorem handle_failure_go_no_pull_no_other (cfg : OrchConfig) (ptype : String)
    (fixOutcome : Nat → Bool) (retryStatus : Nat → PipelineStatus)
    (retryErr : Nat → Option String) :
    ∀ L : List Nat,
      (handle_failure_go cfg ptype fixOutcome retryStatus retryErr L).filter
        Event.isPull = [] ∧
      ∀ q, q ≠ ptype →
        (handle_failure_go cfg ptype fixOutcome retryStatus retryErr L).filter
          (Event.isTriggerOf q) = []
  | [] => ⟨rfl, fun _ _ => rfl⟩
  | a :: rest => by
    obtain ⟨ih1, ih2⟩ :=
      handle_failure_go_no_pull_no_other cfg ptype fixOutcome retryStatus retryErr rest
    have hben := trigger_pipeline_events_benign cfg ptype (retryStatus a) (retryErr a)
    by_cases hf : fixOutcome a = true
    · by_cases hst : (trigger_pipeline cfg ptype (retryStatus a) (retryErr a)).1.status =
          StatusVal.enum PipelineStatus.success
      · refine ⟨?_, ?_⟩
        · simp [handle_failure_go, hf, hst, List.filter_append, List.filter,
            Event.isPull, hben.2.1]
        · intro q hq
          simp [handle_failure_go, hf, hst, List.filter_append, List.filter,
            Event.isTriggerOf, hben.2.2 q hq]
      · refine ⟨?_, ?_⟩
        · simp [handle_failure_go, hf, hst, List.filter_append, List.filter,
            Event.isPull, hben.2.1, ih1]
        · intro q hq
          simp [handle_failure_go, hf, hst, List.filter_append, List.filter,
            Event.isTriggerOf, hben.2.2 q hq, ih2 q hq]
    · refine ⟨?_, ?_⟩
      · simp [handle_failure_go, hf, List.filter, Event.isPull, ih1]
      · intro q hq
        simp [handle_failure_go, hf, List.filter, Event.isTriggerOf, ih2 q hq]

theorem handle_failure_no_pull_no_other (cfg : OrchConfig) (ptype : String)
    (fixOutcome : Nat → Bool) (retryStatus : Nat → PipelineStatus)
    (retryErr : Nat → Option String) :
    (handle_failure cfg ptype fixOutcome retryStatus retryErr).filter Event.isPull = [] ∧
    ∀ q, q ≠ ptype →
      (handle_failure cfg ptype fixOutcome retryStatus retryErr).filter
        (Event.isTriggerOf q) = [] := by
  unfold handle_failure
  split
  · exact ⟨rfl, fun _ _ => rfl⟩
  · exact handle_failure_go_no_pull_no_other cfg ptype fixOutcome retryStatus retryErr _

theorem trigger_ci_pipeline_events (cfg : OrchConfig)
    (bs ts ds : PipelineStatus) (be te de : Option String)
    (fo : Nat → Bool) (rs : Nat → PipelineStatus) (re : Nat → Option String) :
    (trigger_ci_pipeline cfg bs ts ds be te de fo rs re).filter Event.isPull = [] ∧
    1 ≤ ((trigger_ci_pipeline cfg bs ts ds be te de fo rs re).filter
        (Event.isTriggerOf "build")).length ∧
    (bs = PipelineStatus.success →
      ((trigger_ci_pipeline cfg bs ts ds be te de fo rs re).filter
          (Event.isTriggerOf "build")).length = 1) := by
  have hbB := trigger_pipeline_events_benign cfg "build" bs be
  have hbT := trigger_pipeline_events_benign cfg "test" ts te
  have hbD := trigger_pipeline_events_benign cfg "deploy" ds de
  have hself := trigger_pipeline_self_trigger cfg "build" bs be
  unfold trigger_ci_pipeline
  by_cases hb : (trigger_pipeline cfg "build" bs be).1.status =
      StatusVal.enum PipelineStatus.success
  · simp only [hb, if_pos rfl]
    have htq : ∀ q, (trigger_pipeline cfg "test" ts te).1.ptype.getD "unknown" = q →
        q ≠ "build" := by
      intro q hq
      rcases trigger_pipeline_cases cfg "test" ts te with ⟨hp, _⟩ | ⟨hp, _⟩ <;>
        rw [hp] at hq <;> simp at hq <;> simp [← hq]
    have hHF := handle_failure_no_pull_no_other cfg
      ((trigger_pipeline cfg "test" ts te).1.ptype.getD "unknown") fo rs re
    by_cases ht : (trigger_pipeline cfg "test" ts te).1.status =
        StatusVal.enum PipelineStatus.success
    · by_cases hd : cfg.autoDeploy = true
      · simp [ht, hd, List.filter_append, hbB.2.1, hbT.2.1, hbD.2.1, hself,
          hbT.2.2 "build" (by decide), hbD.2.2 "build" (by decide)]
      · simp only [Bool.not_eq_true] at hd
        simp [ht, hd, List.filter_append, hbB.2.1, hbT.2.1, hself,
          hbT.2.2 "build" (by decide)]
    · simp [ht, List.filter_append, hbB.2.1, hbT.2.1, hself,
        hbT.2.2 "build" (by decide), hHF.1,
        hHF.2 "build" (Ne.symm (htq _ rfl))]
  · simp only [hb, if_neg (by exact hb)]
    have hHF := handle_failure_no_pull_no_other cfg
      ((trigger_pipeline cfg "build" bs be).1.ptype.getD "unknown") fo rs re
    refine ⟨?_, ?_, ?_⟩
    · simp [List.filter_append, hbB.2.1, hHF.1]
    · simp [List.filter_append, hself]
    · intro hbs
      rcases trigger_pipeline_cases cfg "build" bs be with ⟨_, hs⟩ | ⟨hp, _⟩
      · exact absurd (hbs ▸ hs) hb
      · have hq : ("build" : String) ≠
            (trigger_pipeline cfg "build" bs be).1.ptype.getD "unknown" := by
          rw [hp]
          decide
        simp [List.filter_append, hself, hHF.2 "build" hq]

/-- C9 counterexample: an iteration in which the heads differ, the build
run fails, auto-fix is on, and every fix applies but every retry fails.
Exactly one pull occurs, but `trigger_pipeline("build")` is invoked three
times in the iteration (once by the monitor chain, twice by the Recovery
Coordinator's retries) — not exactly once as the claim states. -/
theorem monitor_changes_single_trigger_counterexample :
    ("aaa" : String) ≠ "bbb" ∧
    ((monitor_changes wCfg true true "aaa" "bbb" PipelineStatus.failed
        PipelineStatus.success PipelineStatus.success none none none
        (fun _ => true) (fun _ => PipelineStatus.failed) (fun _ => none)).filter
      Event.isPull).length = 1 ∧
    ((monitor_changes wCfg true true "aaa" "bbb" PipelineStatus.failed
        PipelineStatus.success PipelineStatus.success none none none
        (fun _ => true) (fun _ => PipelineStatus.failed) (fun _ => none)).filter
      (Event.isTriggerOf "build")).length = 3 := by
  refine ⟨by decide, ?_, ?_⟩ <;> decide

/-- C9 amended: with a repository configured and the remote branch found,
an iteration with equal local and remote heads performs no pull and
triggers no pipeline (its only event is the fetch); an iteration with
differing heads performs exactly one pull and issues one initial
build-pipeline trigger — exactly one in total whenever the build run
succeeds, while a failed build may add further build triggers through the
Recovery Coordinator's retries. -/
theorem monitor_changes_spec (cfg : OrchConfig) (curr remote : String)
    (bs ts ds : PipelineStatus) (be te de : Option String)
    (fo : Nat → Bool) (rs : Nat → PipelineStatus) (re : Nat → Option String) :
    (curr = remote →
      monitor_changes cfg true true curr remote bs ts ds be te de fo rs re =
        [Event.fetch]) ∧
    (curr ≠ remote →
      ((monitor_changes cfg true true curr remote bs ts ds be te de fo rs re).filter
          Event.isPull).length = 1 ∧
      1 ≤ ((monitor_changes cfg true true curr remote bs ts ds be te de fo rs re).filter
          (Event.isTriggerOf "build")).length ∧
      (bs = PipelineStatus.success →
        ((monitor_changes cfg true true curr remote bs ts ds be te de fo rs re).filter
            (Event.isTriggerOf "build")).length = 1)) := by
  have hci := trigger_ci_pipeline_events cfg bs ts ds be te de fo rs re
  constructor
  · intro heq
    simp [monitor_changes, heq]
  · intro hne
    refine ⟨?_, ?_, ?_⟩
    · simp [monitor_changes, hne, List.filter, Event.isPull, hci.1]
    · simpa [monitor_changes, hne, List.filter, Event.isTriggerOf] using hci.2.1
    · intro hbs
      simpa [monitor_changes, hne, List.filter, Event.isTriggerOf] using hci.2.2 hbs

theorem monitor_changes_spec_witness :
    (("ccc" : String) = "ccc" →
      monitor_changes wCfg true true "ccc" "ccc" PipelineStatus.success
        PipelineStatus.success PipelineStatus.success none none none
        (fun _ => true) (fun _ => PipelineStatus.success) (fun _ => none) = [Event.fetch]) ∧
    ((monitor_changes wCfg true true "aaa" "bbb" PipelineStatus.success
        PipelineStatus.success PipelineStatus.success none none none
        (fun _ => true) (fun _ => PipelineStatus.success) (fun _ => none)).filter
      Event.isPull).length = 1 ∧
    ((monitor_changes wCfg true true "aaa" "bbb" PipelineStatus.success
        PipelineStatus.success PipelineStatus.success none none none
        (fun _ => true) (fun _ => PipelineStatus.success) (fun _ => none)).filter
      (Event.isTriggerOf "build")).length = 1 :=
  ⟨(monitor_changes_spec wCfg "ccc" "ccc" PipelineStatus.success PipelineStatus.success
      PipelineStatus.success none none none (fun _ => true)
      (fun _ => PipelineStatus.success) (fun _ => none)).1,
   ((monitor_changes_spec wCfg "aaa" "bbb" PipelineStatus.success PipelineStatus.success
      PipelineStatus.success none none none (fun _ => true)
      (fun _ => PipelineStatus.success) (fun _ => none)).2 (by decide)).1,
   (((monitor_changes_spec wCfg "aaa" "bbb" PipelineStatus.success PipelineStatus.success
      PipelineStatus.success none none none (fun _ => true)
      (fun _ => PipelineStatus.success) (fun _ => none)).2 (by decide)).2.2 rfl)⟩

/-- C10: for a pipeline type whose configuration has `enabled = false`,
`trigger_pipeline` returns a result whose status is the plain string
`"disabled"` — a value no member of the `PipelineStatus` enumeration
carries — and its only event is the entry into `trigger_pipeline` itself:
no `execute_pipeline` call happens (so no stage or task executes and no
RunRecord is registered) and no alert is emitted. -/
theorem trigger_pipeline_disabled (cfg : OrchConfig) (ptype : String)
    (st : PipelineStatus) (err : Option String) (h : cfg.enabled ptype = false) :
    (trigger_pipeline cfg ptype st err).1.status = StatusVal.str "disabled" ∧
    (∀ s : PipelineStatus, s.value ≠ "disabled") ∧
    (trigger_pipeline cfg ptype st err).2 = [Event.triggerCall ptype] ∧
    (trigger_pipeline cfg ptype st err).2.filter Event.isExecuteRun = [] ∧
    (trigger_pipeline cfg ptype st err).2.filter Event.isAlert = [] := by
  refine ⟨?_, ?_, ?_, ?_, ?_⟩
  · simp [trigger_pipeline, h]
  · intro s
    cases s <;> simp [PipelineStatus.value]
  · simp [trigger_pipeline, h]
  · simp [trigger_pipeline, h, List.filter, Event.isExecuteRun]
  · simp [trigger_pipeline, h, List.filter, Event.isAlert]

/-- Configuration with the deploy pipeline disabled, for the C10 witness. -/
def wCfgDisabled : OrchConfig :=
  ⟨fun p => p != "deploy", ["build", "test", "deploy"], true, 3, false⟩

theorem trigger_pipeline_disabled_witness :
    wCfgDisabled.enabled "deploy" = false ∧
    ((trigger_pipeline wCfgDisabled "deploy" PipelineStatus.success none).1.status =
        StatusVal.str "disabled" ∧
     (∀ s : PipelineStatus, s.value ≠ "disabled") ∧
     (trigger_pipeline wCfgDisabled "deploy" PipelineStatus.success none).2 =
        [Event.triggerCall "deploy"] ∧
     (trigger_pipeline wCfgDisabled "deploy" PipelineStatus.success none).2.filter
        Event.isExecuteRun = [] ∧
     (trigger_pipeline wCfgDisabled "deploy" PipelineStatus.success none).2.filter
        Event.isAlert = []) :=
  ⟨by decide,
   trigger_pipeline_disabled wCfgDisabled "deploy" PipelineStatus.success none (by decide)⟩

/-! ## Applying a fix descriptor — `AIFixer.apply_fix` (`ai_fixer.py`) -/

/-- A fix descriptor as consumed by `AIFixer.apply_fix`: the `"files"` map
(path → new content, in insertion order) and the `"commands"` list. -/
structure Fix where
  files : List (String × String)
  commands : List String
  deriving DecidableEq, Repr

/-- One observable action of `apply_fix`: a file write or a shell command
invocation. -/
inductive FixAction
  | writeFile (path : String)
  | runCommand (cmd : String)
  deriving DecidableEq, Repr

/-- The `results` dictionary built by `apply_fix`: overall success flag,
the modified files, the `(command, returncode)` pairs of the commands that
ran to completion, and the collected error messages. -/
structure ApplyResult where
  success : Bool
  filesModified : List String
  commandsExecuted : List (String × Int)
  errors : List String
  deriving DecidableEq, Repr

/-- The file loop of `apply_fix` (lines 338-357): attempt every write in
order; a failed write (`Except.error`, modelling a raised exception) adds an
error message and the loop continues with the remaining files.  Returns the
modified files, the error messages, and the write actions attempted. -/
def applyFiles (writeFile : String → String → Except String Unit) :
    List (String × String) → List String × List String × List FixAction
  | [] => ([], [], [])
  | (p, content) :: rest =>
    let q := applyFiles writeFile rest
    match writeFile p content with
    | .ok _ => (p :: q.1, q.2.1, FixAction.writeFile p :: q.2.2)
    | .error e =>
      (q.1, ("Failed to modify " ++ p ++ ": " ++ e) :: q.2.1,
       FixAction.writeFile p :: q.2.2)

/-- The command loop of `apply_fix` (lines 359-386): run every command in
order via `subprocess.run` (`runCmd cmd` returns the returncode, stdout and
stderr, or `Except.error` for a raised exception such as a timeout).  A
non-zero returncode records an error message and the loop CONTINUES with
the next command; a raised exception likewise records an error and
continues.  Returns the `(command, returncode)` pairs, the error messages,
and the command actions attempted. -/
def runCommands (runCmd : String → Except String (Int × String × String)) :
    List String → List (String × Int) × List String × List FixAction
  | [] => ([], [], [])
  | cmd :: rest =>
    let q := runCommands runCmd rest
    match runCmd cmd with
    | .ok r =>
      ((cmd, r.1) :: q.1,
       (if r.1 ≠ 0 then [("Command failed: " ++ cmd ++ "\n" ++ r.2.2)] else []) ++ q.2.1,
       FixAction.runCommand cmd :: q.2.2)
    | .error e =>
      (q.1, ("Failed to execute " ++ cmd ++ ": " ++ e) :: q.2.1,
       FixAction.runCommand cmd :: q.2.2)

/-- Embedding of `AIFixer.apply_fix` (lines 316-400): apply the file changes, then
execute the commands; the attempt is successful iff no error was collected
(`if results["errors"]: results["success"] = False`, line 388, together
with the per-file failure flagging of line 357).  Besides the result
dictionary, the ordered trace of attempted actions is returned. -/
def apply_fix (writeFile : String → String → Except String Unit)
    (runCmd : String → Except String (Int × String × String)) (fix : Fix) :
    ApplyResult × List FixAction :=
  let f := applyFiles writeFile fix.files
  let c := runCommands runCmd fix.commands
  let errors := f.2.1 ++ c.2.1
  (⟨errors.isEmpty, f.1, c.1, errors⟩, f.2.2 ++ c.2.2)

/-- Oracle for the C5 counterexample and witness: every write succeeds. -/
def wWrite : String → String → Except String Unit := fun _ _ => .ok ()

/-- Oracle for the C5 counterexample and witness: command `"c1"` exits with
code 1, every other command with code 0. -/
def wRun : String → Except String (Int × String × String) :=
  fun cmd => if cmd = "c1" then .ok (1, "", "boom") else .ok (0, "", "")

/-- C5 counterexample: a fix with commands `["c1", "c2"]` where `"c1"`
returns exit code 1.  The claim requires that no further command run after
the first non-zero exit, i.e. `commands_executed = [("c1", 1)]`; the code
instead continues and also executes `"c2"`. -/
theorem apply_fix_abort_counterexample :
    (apply_fix wWrite wRun ⟨[], ["c1", "c2"]⟩).1.commandsExecuted = [("c1", 1), ("c2", 0)] ∧
    ¬ (apply_fix wWrite wRun ⟨[], ["c1", "c2"]⟩).1.commandsExecuted = [("c1", 1)] ∧
    (apply_fix wWrite wRun ⟨[], ["c1", "c2"]⟩).1.success = false := by
  refine ⟨?_, ?_, ?_⟩ <;> decide

theorem applyFiles_trace (writeFile : String → String → Except String Unit) :
    ∀ fs : List (String × String),
      (applyFiles writeFile fs).2.2 = fs.map (fun pc => FixAction.writeFile pc.1)
  | [] => rfl
  | (p, content) :: rest => by
    have ih := applyFiles_trace writeFile rest
    cases h : writeFile p content <;> simp [applyFiles, h, ih]

theorem runCommands_trace (runCmd : String → Except String (Int × String × String)) :
    ∀ cs : List String,
      (runCommands runCmd cs).2.2 = cs.map FixAction.runCommand
  | [] => rfl
  | cmd :: rest => by
    have ih := runCommands_trace runCmd rest
    cases h : runCmd cmd <;> simp [runCommands, h, ih]

theorem runCommands_nonzero_error (runCmd : String → Except String (Int × String × String)) :
    ∀ (cs : List String) (cmd : String) (rc : Int),
      (cmd, rc) ∈ (runCommands runCmd cs).1 → rc ≠ 0 →
      (runCommands runCmd cs).2.1 ≠ []
  | [], _, _, hmem, _ => by simp [runCommands] at hmem
  | c :: rest, cmd, rc, hmem, hrc => by
    cases h : runCmd c with
    | ok r =>
      simp only [runCommands, h] at hmem ⊢
      rcases List.mem_cons.mp hmem with heq | hmem'
      · have hr : rc = r.1 := congrArg Prod.snd heq
        rw [← hr]
        simp [hrc]
      · intro hnil
        rcases List.append_eq_nil.mp hnil with ⟨-, h2⟩
        exact runCommands_nonzero_error runCmd rest cmd rc hmem' hrc h2
    | error e =>
      simp only [runCommands, h] at hmem ⊢
      intro hnil
      exact List.noConfusion hnil

/-- C5 amended: `apply_fix` attempts the file writes first and then the
shell commands, each group in list order; a command returning a non-zero
exit code marks the whole fix attempt failed (`success = false`), but —
contrary to the claim — execution does NOT stop there: every listed command
is attempted regardless of earlier failures. -/
theorem apply_fix_spec (writeFile : String → String → Except String Unit)
    (runCmd : String → Except String (Int × String × String)) (fix : Fix) :
    (apply_fix writeFile runCmd fix).2 =
      fix.files.map (fun pc => FixAction.writeFile pc.1) ++
        fix.commands.map FixAction.runCommand ∧
    (∀ cmd rc, (cmd, rc) ∈ (apply_fix writeFile runCmd fix).1.commandsExecuted →
      rc ≠ 0 → (apply_fix writeFile runCmd fix).1.success = false) := by
  constructor
  · simp [apply_fix, applyFiles_trace, runCommands_trace]
  · intro cmd rc hmem hrc
    have hne := runCommands_nonzero_error runCmd fix.commands cmd rc
      (by simpa [apply_fix] using hmem) hrc
    cases hl : (applyFiles writeFile fix.files).2.1 ++ (runCommands runCmd fix.commands).2.1 with
    | nil => exact absurd (List.append_eq_nil.mp hl).2 hne
    | cons a l => simp [apply_fix, hl]

theorem apply_fix_spec_witness :
    ((apply_fix wWrite wRun ⟨[("a.py", "x")], ["c1", "c2"]⟩).2 =
      [FixAction.writeFile "a.py", FixAction.runCommand "c1", FixAction.runCommand "c2"] ∧
     ("c1", (1 : Int)) ∈ (apply_fix wWrite wRun ⟨[("a.py", "x")], ["c1", "c2"]⟩).1.commandsExecuted ∧
     (1 : Int) ≠ 0) ∧
    (apply_fix wWrite wRun ⟨[("a.py", "x")], ["c1", "c2"]⟩).1.success = false :=
  ⟨⟨(apply_fix_spec wWrite wRun ⟨[("a.py", "x")], ["c1", "c2"]⟩).1, by decide, by decide⟩,
   (apply_fix_spec wWrite wRun ⟨[("a.py", "x")], ["c1", "c2"]⟩).2 "c1" 1 (by decide) (by decide)⟩

end Orchestrator
